import Mathlib

/-!
Shallow embedding of the pillow_endpoint client scripts.

Embedded components:
- the energy-based VAD capture loop of `scripts/mic_convo.py` (`record_from_mic`),
  duplicated verbatim in `scripts/prod_mic_convo.py` (`record_once`) and
  `scripts/mic_llm_tts.py` (`record_vad`);
- the WAV serialization performed through Python's `wave` module at the end of
  those capture routines;
- the multipart/mixed demultiplexers: the whole-buffer split mode of
  `scripts/mic_convo.py` / `scripts/prod_mic_convo.py` (`parse_multipart`), the
  length-framed streaming mode of `scripts/examples/call_transcribe.py`
  (`parse_multipart`), and `scripts/play_waifu.py` (`parse_multipart_stream`,
  `stream_multipart_to_player`);
- the sink closures of `convo_once` in `scripts/mic_convo.py` that fold parsed
  parts into a single metadata value and a single audio value.

Modelling conventions: bytes are ℕ (values 0..255 in all inputs considered),
byte strings are `List ℕ`, Python floats are ℚ (an exact-real idealization of
IEEE arithmetic; no comparison used by a theorem below sits at a rounding
boundary), int16 samples are ℤ, wall-clock instants returned by `time.time()`
during the handling of one queue item are idealized to a single rational
timestamp attached to that item, and a fallible Python function that can raise
is embedded with an `Option`/sum result. Loops whose every iteration either
returns or consumes at least one byte of the stream are written with an explicit
fuel argument; callers pass `length + 1`, which the consumption argument shows
is always sufficient.
-/

namespace PillowEndpoint

/-- ASCII byte values of a string literal. -/
def ascii (s : String) : List ℕ := s.data.map Char.toNat

/-- Python `bytes.lower` / `str.lower` on an ASCII byte. -/
def lowerByte (b : ℕ) : ℕ := if 65 ≤ b ∧ b ≤ 90 then b + 32 else b

/-- Lowercase an ASCII byte string. -/
def lowerAll (l : List ℕ) : List ℕ := l.map lowerByte

/-- The ASCII whitespace bytes stripped by Python `strip()`. -/
def isWsByte (b : ℕ) : Bool := b == 32 || b == 9 || b == 10 || b == 13 || b == 11 || b == 12

/-- Python `strip()`: drop whitespace from both ends. -/
def stripWs (l : List ℕ) : List ℕ :=
  ((l.dropWhile isWsByte).reverse.dropWhile isWsByte).reverse

/-- Whether `pat` occurs at the head of `l`. -/
def listStarts : List ℕ → List ℕ → Bool
  | [], _ => true
  | _ :: _, [] => false
  | a :: p, b :: l => a == b && listStarts p l

/-- Whether `pat` occurs at the head of `l` after lowercasing `l`
(the effect of `re.IGNORECASE` on a lowercase literal pattern). -/
def listStartsLower : List ℕ → List ℕ → Bool
  | [], _ => true
  | _ :: _, [] => false
  | a :: p, b :: l => a == lowerByte b && listStartsLower p l

/-- Python substring test (`pat in l`). -/
def containsSub (pat : List ℕ) : List ℕ → Bool
  | [] => pat.isEmpty
  | b :: t => listStarts pat (b :: t) || containsSub pat t

/-- Index of the first occurrence of `pat` in `l` (Python `find`/`split` position). -/
def findSubIdx? (pat : List ℕ) : List ℕ → Option ℕ
  | [] => if pat.isEmpty then some 0 else none
  | b :: t => if listStarts pat (b :: t) then some 0 else (findSubIdx? pat t).map (· + 1)

/-- `readline()` on a buffered byte stream: everything up to and including the
first LF; the whole rest if no LF remains; `[]` at end of stream. -/
def readLine : List ℕ → List ℕ × List ℕ
  | [] => ([], [])
  | b :: t =>
    if b = 10 then ([b], t)
    else
      let r := readLine t
      (b :: r.1, r.2)

/-- Split a byte string at the first `:` (Python `str.partition(':')`):
left part, and what follows the colon (empty when there is no colon). -/
def breakColon : List ℕ → List ℕ × List ℕ
  | [] => ([], [])
  | b :: t =>
    if b = 58 then ([], t)
    else
      let r := breakColon t
      (b :: r.1, r.2)

/-- One header line as stored by the scripts:
`key.lower().strip()` mapped to `val.strip()`. -/
def parseHeaderLine (line : List ℕ) : List ℕ × List ℕ :=
  let kv := breakColon line
  (stripWs (lowerAll kv.1), stripWs kv.2)

/-- Header mapping of one part; later assignments to the same key override
earlier ones, as in a Python dict. -/
abbrev Headers := List (List ℕ × List ℕ)

/-- Python dict lookup: the value of the last assignment to `k`. -/
def hget (h : Headers) (k : List ℕ) : Option (List ℕ) :=
  (h.reverse.find? (fun p => p.1 == k)).map Prod.snd

/-- Python `dict.get(k, d)`. -/
def hgetD (h : Headers) (k d : List ℕ) : List ℕ := (hget h k).getD d

/-- ASCII digit test. -/
def isDigit (b : ℕ) : Bool := 48 ≤ b && b ≤ 57

/-- Value of an ASCII digit string. -/
def digitsToNat (l : List ℕ) : ℕ := l.foldl (fun a b => a * 10 + (b - 48)) 0

/-- Python `int(str)`: optional surrounding whitespace, optional sign, at least
one digit; anything else raises `ValueError`, embedded as `none`.
(Python additionally allows underscore digit grouping, which no input
considered here uses.) -/
def pyInt (s : List ℕ) : Option ℤ :=
  match stripWs s with
  | 43 :: r => if !r.isEmpty && r.all isDigit then some (digitsToNat r) else none
  | 45 :: r => if !r.isEmpty && r.all isDigit then some (-(digitsToNat r : ℤ)) else none
  | r => if !r.isEmpty && r.all isDigit then some (digitsToNat r) else none

/-- Python `int(float)`: truncation toward zero. -/
def pyTrunc (q : ℚ) : ℤ := if 0 ≤ q then ⌊q⌋ else -⌊-q⌋

/-! ## WAV container

`record_from_mic` (scripts/mic_convo.py lines 102-109) serializes the collected
int16 samples with Python's `wave` module: mono, sample width 2, the configured
frame rate. The resulting byte string is the standard 44-byte PCM header
followed by the little-endian samples. -/

/-- Two little-endian bytes of an unsigned 16-bit value. -/
def u16le (n : ℕ) : List ℕ := [n % 256, n / 256 % 256]

/-- Four little-endian bytes of an unsigned 32-bit value. -/
def u32le (n : ℕ) : List ℕ := [n % 256, n / 256 % 256, n / 65536 % 256, n / 16777216 % 256]

/-- Little-endian two's-complement bytes of an int16 sample. -/
def s16le (x : ℤ) : List ℕ := u16le (x % 65536).toNat

/-- Little-endian byte stream of an int16 sample sequence (`y.tobytes()`). -/
def pcmBytes : List ℤ → List ℕ
  | [] => []
  | x :: xs => s16le x ++ pcmBytes xs

/-- The byte string produced by the `wave` module for PCM16 mono data at
`rate` Hz: RIFF chunk, fmt chunk (PCM, 1 channel, byte rate `rate * 2`,
block align 2, 16 bits), data chunk. A pure function of `(rate, samples)`:
the container has no timestamp or padding fields. -/
def wavEncode (rate : ℕ) (samples : List ℤ) : List ℕ :=
  ascii "RIFF" ++ u32le (36 + 2 * samples.length) ++ ascii "WAVE" ++
  ascii "fmt " ++ u32le 16 ++ u16le 1 ++ u16le 1 ++ u32le rate ++
  u32le (rate * 2) ++ u16le 2 ++ u16le 16 ++ ascii "data" ++
  u32le (2 * samples.length) ++ pcmBytes samples

/-- Consume an expected literal byte sequence from a stream. -/
def dropLit (pat l : List ℕ) : Option (List ℕ) :=
  if listStarts pat l then some (l.drop pat.length) else none

/-- Read an unsigned little-endian 16-bit value. -/
def readU16 : List ℕ → Option (ℕ × List ℕ)
  | b0 :: b1 :: r => some (b0 + 256 * b1, r)
  | _ => none

/-- Read an unsigned little-endian 32-bit value. -/
def readU32 : List ℕ → Option (ℕ × List ℕ)
  | b0 :: b1 :: b2 :: b3 :: r => some (b0 + 256 * b1 + 65536 * b2 + 16777216 * b3, r)
  | _ => none

/-- Signed int16 value of a little-endian byte pair. -/
def s16dec (lo hi : ℕ) : ℤ :=
  let u := lo + 256 * hi
  if u < 32768 then (u : ℤ) else (u : ℤ) - 65536

/-- Decode a little-endian int16 byte stream; fails on an odd byte count. -/
def pcmDecode : List ℕ → Option (List ℤ)
  | [] => some []
  | [_] => none
  | lo :: hi :: r =>
    match pcmDecode r with
    | some xs => some (s16dec lo hi :: xs)
    | none => none

/-- Modelled from the spec: the repository only writes this container, so the
reader required by the spec's round-trip property ("encoding a known sample
sequence to the audio container and decoding it back yields the identical
sample sequence and sample rate") is not in `src/`. This decoder follows the
spec's description of the canonical container: uncompressed PCM, mono, 16-bit
little-endian samples, self-describing standard header. It validates every
fixed header field and the declared sizes, and returns the sample rate and the
samples. -/
def wavDecode (bs : List ℕ) : Option (ℕ × List ℤ) :=
  match dropLit (ascii "RIFF") bs with
  | none => none
  | some r1 =>
  match readU32 r1 with
  | none => none
  | some (sz, r2) =>
  match dropLit (ascii "WAVE") r2 with
  | none => none
  | some r3 =>
  match dropLit (ascii "fmt ") r3 with
  | none => none
  | some r4 =>
  match readU32 r4 with
  | none => none
  | some (fmtLen, r5) =>
  match readU16 r5 with
  | none => none
  | some (audioFmt, r6) =>
  match readU16 r6 with
  | none => none
  | some (nch, r7) =>
  match readU32 r7 with
  | none => none
  | some (rate, r8) =>
  match readU32 r8 with
  | none => none
  | some (byteRate, r9) =>
  match readU16 r9 with
  | none => none
  | some (blockAlign, r10) =>
  match readU16 r10 with
  | none => none
  | some (bits, r11) =>
  match dropLit (ascii "data") r11 with
  | none => none
  | some r12 =>
  match readU32 r12 with
  | none => none
  | some (dataLen, body) =>
  if fmtLen = 16 ∧ audioFmt = 1 ∧ nch = 1 ∧ blockAlign = 2 ∧ bits = 16 ∧
      sz = 36 + dataLen ∧ byteRate = rate * 2 ∧ body.length = dataLen then
    match pcmDecode body with
    | none => none
    | some xs => some (rate, xs)
  else none

/-- Value reassembled by `readU16` from the bytes `u16le` wrote. -/
def u16val (n : ℕ) : ℕ := n % 256 + 256 * (n / 256 % 256)

/-- Value reassembled by `readU32` from the bytes `u32le` wrote. -/
def u32val (n : ℕ) : ℕ :=
  n % 256 + 256 * (n / 256 % 256) + 65536 * (n / 65536 % 256) + 16777216 * (n / 16777216 % 256)

/-! ## VAD capture loop

`record_from_mic` (scripts/mic_convo.py lines 34-109); the same loop appears as
`record_once` in scripts/prod_mic_convo.py lines 27-84 and `record_vad` in
scripts/mic_llm_tts.py lines 21-86, differing only in default parameters.
The loop consumes a queue fed by the audio callback: each `q.get(timeout=0.5)`
either yields one int16 frame or raises `queue.Empty`; both outcomes are
events, tagged with the (idealized, single) `time.time()` value observed while
handling them. -/

/-- Tunables of the capture routine (the keyword parameters of
`record_from_mic`). -/
structure VadCfg where
  samplerate : ℕ
  start_threshold : ℚ
  stop_threshold : ℚ
  min_speech_ms : ℕ
  trailing_silence_ms : ℕ
  max_seconds : ℚ
deriving DecidableEq

/-- `silence_limit_samples = int(trailing_silence_ms * samplerate / 1000)`. -/
def VadCfg.silence_limit_samples (c : VadCfg) : ℤ :=
  pyTrunc ((c.trailing_silence_ms : ℚ) * c.samplerate / 1000)

/-- `min_speech_samples = int(min_speech_ms * samplerate / 1000)`. -/
def VadCfg.min_speech_samples (c : VadCfg) : ℤ :=
  pyTrunc ((c.min_speech_ms : ℚ) * c.samplerate / 1000)

/-- `max_samples = int(max_seconds * samplerate)`. -/
def VadCfg.max_samples (c : VadCfg) : ℤ :=
  pyTrunc (c.max_seconds * c.samplerate)

/-- The epsilon added to the frame level (`+ 1e-9` in the source). -/
def vadEps : ℚ := 1e-9

/-- Mean square of the normalized samples of a frame,
`np.mean((x / 32768.0) ** 2)`. -/
def meanSq (xs : List ℤ) : ℚ :=
  ((xs.map fun x => ((x : ℚ) / 32768) ^ 2).sum) / xs.length

/-- Decision `level >= thr` where
`level = sqrt(np.mean((x / 32768.0) ** 2)) + 1e-9`. Squaring gives the exact
real-arithmetic equivalent without a square root: for `thr ≤ 1e-9` the
comparison always holds, otherwise it holds iff
`meanSq xs ≥ (thr - 1e-9)^2`. An empty frame gives NaN in NumPy, for which
every `>=` comparison is false; frames are never empty in practice
(blocksize 1024). -/
def levelGe (xs : List ℤ) (thr : ℚ) : Bool :=
  if xs.isEmpty then false
  else if thr ≤ vadEps then true
  else decide ((thr - vadEps) ^ 2 ≤ meanSq xs)

/-- One observation of the capture loop: a dequeued frame, or `queue.Empty`
after the 0.5 s wait. `t` is the `time.time()` value during its handling. -/
inductive VadEvent where
  | frame (t : ℚ) (xs : List ℤ)
  | timeout (t : ℚ)
deriving DecidableEq

/-- Mutable state of the capture loop. `speech_start_ts` and `last_voice_ts`
are `None` until `started` is set; every read of them in the source is guarded
by `started`, so they are carried here as plain rationals (0 before first
assignment). -/
structure VadState where
  started : Bool
  speech_start_ts : ℚ
  last_voice_ts : ℚ
  collected : List (List ℤ)
  total_samples : ℕ
deriving DecidableEq

/-- State at `while True:` entry. -/
def vadInit : VadState := ⟨false, 0, 0, [], 0⟩

/-- Which `break` statement terminated the loop: the `queue.Empty` stall
check, the min-speech/trailing-silence check, or the `max_samples` hard cap. -/
inductive BreakReason where
  | stall
  | silence
  | cap
deriving DecidableEq

/-- Result of one loop iteration: `next` continues the loop, `brk` leaves it. -/
inductive StepOut where
  | next (s : VadState)
  | brk (r : BreakReason) (s : VadState)
deriving DecidableEq

/-- One iteration of the `while True:` loop of `record_from_mic`
(scripts/mic_convo.py lines 67-98), for one queue observation. -/
def vadStep (c : VadCfg) (s : VadState) : VadEvent → StepOut
  | .timeout t =>
    -- except queue.Empty: if started and (time.time() - last_voice_ts) *
    -- samplerate > silence_limit_samples: break; continue
    if s.started = true ∧ (t - s.last_voice_ts) * c.samplerate > (c.silence_limit_samples : ℚ)
    then .brk .stall s else .next s
  | .frame t xs =>
    let total' := s.total_samples + xs.length
    match s.started with
    | false =>
      if levelGe xs c.start_threshold then
        -- crossing: started = True; record timestamps; admit this frame
        let s' : VadState := ⟨true, t, t, s.collected ++ [xs], total'⟩
        if (total' : ℤ) ≥ c.max_samples then .brk .cap s' else .next s'
      else
        -- continue: the hard-cap check at the loop tail is skipped
        .next { s with total_samples := total' }
    | true =>
      let lv := if levelGe xs c.stop_threshold then t else s.last_voice_ts
      let s' : VadState :=
        ⟨true, s.speech_start_ts, lv, s.collected ++ [xs], total'⟩
      let speech_dur : ℤ := pyTrunc ((t - s.speech_start_ts) * c.samplerate)
      let since_voice : ℤ := pyTrunc ((t - lv) * c.samplerate)
      if speech_dur ≥ c.min_speech_samples ∧ since_voice ≥ c.silence_limit_samples
      then .brk .silence s'
      else if (total' : ℤ) ≥ c.max_samples then .brk .cap s' else .next s'

/-- Outcome of running the loop on a finite observation sequence: `broke` if
some iteration executed a `break` (with the unconsumed events), `pending` if
the sequence was exhausted with the loop still blocked in `q.get`. -/
inductive VadOut where
  | broke (r : BreakReason) (s : VadState) (rest : List VadEvent)
  | pending (s : VadState)
deriving DecidableEq

/-- Run the capture loop over a finite event sequence. -/
def vadRun (c : VadCfg) (s : VadState) : List VadEvent → VadOut
  | [] => .pending s
  | e :: es =>
    match vadStep c s e with
    | .next s' => vadRun c s' es
    | .brk r s' => .broke r s' es

/-- Loop state reached by a run. -/
def runState : VadOut → VadState
  | .broke _ s _ => s
  | .pending s => s

/-- Break reason of a run, `none` while the loop is still pending. -/
def runReason : VadOut → Option BreakReason
  | .broke r _ _ => some r
  | .pending _ => none

/-- Break reason of a single step. -/
def stepReason : StepOut → Option BreakReason
  | .next _ => none
  | .brk r _ => some r

/-- Samples admitted to the utterance buffer. -/
def admittedSamples (s : VadState) : ℕ := (s.collected.map List.length).sum

/-- Return value of `record_from_mic` on a finite event sequence: `none` when
the loop never breaks (the function has not returned), otherwise the bytes it
returns — `b""` for an empty buffer, else the WAV encoding of the
concatenated frames (scripts/mic_convo.py lines 100-109). -/
def record_from_mic (c : VadCfg) (evs : List VadEvent) : Option (List ℕ) :=
  match vadRun c vadInit evs with
  | .pending _ => none
  | .broke _ s _ =>
    if s.collected.isEmpty then some []
    else some (wavEncode c.samplerate s.collected.flatten)

/-- Event carrying no voice: a `queue.Empty` wait, or a frame whose level is
below the start threshold. -/
def silentEvent (c : VadCfg) : VadEvent → Bool
  | .timeout _ => true
  | .frame _ xs => !levelGe xs c.start_threshold

/-- Default configuration of `record_from_mic` in scripts/mic_convo.py. -/
def micConvoCfg : VadCfg :=
  ⟨16000, 0.02, 0.01, 150, 700, 10⟩

/-- Small capture configuration used to exercise the hard cap: at
`samplerate = 4` and `max_seconds = 1`, `max_samples = 4`. -/
def capCfg : VadCfg := ⟨4, 0.02, 0.01, 150, 700, 1⟩

/-- Small capture configuration with a long min-speech requirement
(`min_speech_samples = 4`) used to exercise the stall path. -/
def stallCfg : VadCfg := ⟨4, 0.02, 0.01, 1000, 700, 100⟩

/-- Variant of `stallCfg` with `min_speech_ms = 0`, used to compare the stall
path and the frame path at the exact trailing-silence boundary. -/
def stallCfgEq : VadCfg := ⟨4, 0.02, 0.01, 0, 700, 100⟩


/-! ## Multipart demultiplexers

Two framing modes exist in the scripts. Whole-buffer split mode:
`parse_multipart` of scripts/mic_convo.py (lines 119-152), duplicated in
scripts/prod_mic_convo.py (lines 106-137). Length-framed streaming mode:
`parse_multipart` of scripts/examples/call_transcribe.py (lines 58-102),
which routes parts to `on_json`/`on_audio`, and `parse_multipart_stream` of
scripts/play_waifu.py (lines 122-169), which writes every body chunk to one
`write_bytes` sink. The response is modelled as the byte string still
unread; `resp.read(n)` takes up to `n` bytes and `resp.readline()` is
`readLine`. -/

/-- A part delivered to a sink: `on_json(body)` or `on_audio(body, ctype)`. -/
inductive PartEvent where
  | json (body : List ℕ)
  | audio (body : List ℕ) (ctype : List ℕ)
deriving DecidableEq

/-- Part routing of the whole-buffer mode (scripts/mic_convo.py lines
148-152): a content type containing `application/json` goes to the JSON sink;
otherwise one containing `audio/` or equal to `application/octet-stream` goes
to the audio sink with its content type; anything else is dropped. -/
def routeBuffered (pctype body : List ℕ) : Option PartEvent :=
  if containsSub (ascii "application/json") pctype then some (.json body)
  else if containsSub (ascii "audio/") pctype || pctype == ascii "application/octet-stream" then
    some (.audio body pctype)
  else none

/-- Part routing of the length-framed streaming mode
(scripts/examples/call_transcribe.py lines 91-94), textually the same policy
as `routeBuffered`. -/
def routeStream (pctype body : List ℕ) : Option PartEvent :=
  if containsSub (ascii "application/json") pctype then some (.json body)
  else if containsSub (ascii "audio/") pctype || pctype == ascii "application/octet-stream" then
    some (.audio body pctype)
  else none

/-- Maximal run of bytes other than `"` and `;` — the greedy candidate for
the regex capture group. -/
def capRun (l : List ℕ) : List ℕ := l.takeWhile fun b => !(b == 34 || b == 59)

/-- Match of the regex tail `\x22?([^\x22;]+)\x22?` at the start of `l`:
the optional quote is consumed greedily when present, and the capture must be
non-empty (a leading quote can never be part of the capture, so no further
alternative exists). -/
def tryQuoteCap (l : List ℕ) : Option (List ℕ) :=
  match l with
  | 34 :: t => if capRun t = [] then none else some (capRun t)
  | _ => if capRun l = [] then none else some (capRun l)

/-- Greedy backtracking over the whitespace consumed by the regex piece
matching zero or more whitespace bytes: try `k` bytes for `k` from the whole
whitespace run down to `0`. -/
def tmDesc (l : List ℕ) : ℕ → Option (List ℕ)
  | 0 => tryQuoteCap l
  | k + 1 =>
    match tryQuoteCap (l.drop (k + 1)) with
    | some c => some c
    | none => tmDesc l k

/-- Match of the part of the boundary regex after the literal `boundary=`
at the start of `l`. -/
def tailMatch (l : List ℕ) : Option (List ℕ) :=
  tmDesc l (l.takeWhile isWsByte).length

/-- The `re.search` call of the boundary regex with `re.IGNORECASE`
(scripts/mic_convo.py line 124): the leftmost position where the literal
`boundary=` matches case-insensitively and the rest of the pattern succeeds;
the returned value is the capture group. -/
def reSearchBoundary : List ℕ → Option (List ℕ)
  | [] => none
  | b :: t =>
    if listStartsLower (ascii "boundary=") (b :: t) then
      match tailMatch ((b :: t).drop 9) with
      | some c => some c
      | none => reSearchBoundary t
    else reSearchBoundary t

/-- Boundary discovery shared by `parse_multipart` in scripts/mic_convo.py
lines 123-127, scripts/prod_mic_convo.py lines 108-112 and
scripts/examples/call_transcribe.py lines 59-63: the regex capture from the
`Content-Type` header, else the stripped `X-Boundary` header (the empty
string when absent); an empty result raises `RuntimeError` (`none`). -/
def findBoundary (ctypeHdr xBoundary : List ℕ) : Option (List ℕ) :=
  match reSearchBoundary ctypeHdr with
  | some g => if g = [] then none else some g
  | none =>
    let fb := stripWs xBoundary
    if fb = [] then none else some fb

/-- Boundary discovery of `stream_multipart_to_player`
(scripts/play_waifu.py lines 183-188): when the literal `boundary=` occurs in
the Content-Type (case-sensitively), everything after its first occurrence,
stripped; an absent or empty result raises `RuntimeError` (`none`). -/
def pwBoundary (ctypeHdr : List ℕ) : Option (List ℕ) :=
  match findSubIdx? (ascii "boundary=") ctypeHdr with
  | none => none
  | some i =>
    let b := stripWs (ctypeHdr.drop (i + 9))
    if b = [] then none else some b

/-- Sync loop to the first boundary line (scripts/play_waifu.py lines
129-135, scripts/examples/call_transcribe.py lines 70-76); `none` models the
`return` on end of stream. Every iteration consumes at least one byte, so
fuel `s.length + 1` never runs out. -/
def syncBoundary (bline : List ℕ) : ℕ → List ℕ → Option (List ℕ)
  | 0, _ => none
  | fuel + 1, s =>
    let r := readLine s
    if r.1 = [] then none
    else if stripWs r.1 = bline then some r.2
    else syncBoundary bline fuel r.2

/-- Header loop of both streaming parsers (scripts/play_waifu.py lines
138-147, scripts/examples/call_transcribe.py lines 79-87): read lines until a
CRLF or bare-LF blank line, storing `key.lower().strip() -> val.strip()`;
`none` models the `return` on end of stream. -/
def readPartHeaders (h : Headers) : ℕ → List ℕ → Option (Headers × List ℕ)
  | 0, _ => none
  | fuel + 1, s =>
    let r := readLine s
    if r.1 = [] then none
    else if r.1 = [13, 10] ∨ r.1 = [10] then some (h, r.2)
    else readPartHeaders (h ++ [parseHeaderLine r.1]) fuel r.2

/-- Python `resp.read(length)` for an `int` length: a negative amount reads
the whole rest of the stream. -/
def readAmt (amt : ℤ) (s : List ℕ) : List ℕ × List ℕ :=
  if amt < 0 then (s, []) else (s.take amt.toNat, s.drop amt.toNat)

/-- Outcome of the routing streaming demux: a normal return with the sink
events emitted in order and the unread rest of the stream, or a propagated
exception (`ValueError` from `int(...)` on a malformed content-length). -/
inductive DemuxOut where
  | ok (events : List PartEvent) (rest : List ℕ)
  | exn (events : List PartEvent) (rest : List ℕ)
deriving DecidableEq

/-- Per-part loop of `parse_multipart` in scripts/examples/call_transcribe.py
lines 78-102: headers; mandatory-by-default content length (`'0'` when the
header is absent); body of exactly `length` bytes (or up to end of stream);
routing; the trailing CRLF (`resp.read(2)`); then the next line must be the
boundary or the terminal marker, anything else returns. -/
def ctParts (bline endMarker : List ℕ) (acc : List PartEvent) :
    ℕ → List ℕ → DemuxOut
  | 0, s => .ok acc s
  | fuel + 1, s =>
    match readPartHeaders [] (s.length + 1) s with
    | none => .ok acc []
    | some (h, s1) =>
      match pyInt (hgetD h (ascii "content-length") (ascii "0")) with
      | none => .exn acc s1
      | some length =>
        let ctype := hgetD h (ascii "content-type") []
        let br := if length ≠ 0 then readAmt length s1 else ([], s1)
        let acc' := match routeStream ctype br.1 with
          | some e => acc ++ [e]
          | none => acc
        let s3 := br.2.drop 2
        let r := readLine s3
        if r.1 = [] ∨ stripWs r.1 = endMarker then .ok acc' r.2
        else if stripWs r.1 ≠ bline then .ok acc' r.2
        else ctParts bline endMarker acc' fuel r.2

/-- `parse_multipart` of scripts/examples/call_transcribe.py (lines 58-102):
boundary discovery, sync to the first boundary, then the per-part loop.
`none` models the `RuntimeError` for a missing boundary, raised with the
response stream untouched. -/
def parse_multipart_ct (ctypeHdr xBoundary s : List ℕ) : Option DemuxOut :=
  match findBoundary ctypeHdr xBoundary with
  | none => none
  | some b =>
    let bline := ascii "--" ++ b
    let endMarker := ascii "--" ++ b ++ ascii "--"
    match syncBoundary bline (s.length + 1) s with
    | none => some (.ok [] [])
    | some s1 => some (ctParts bline endMarker [] (s1.length + 1) s1)

/-- Events of a `DemuxOut`. -/
def demuxEvents : DemuxOut → List PartEvent
  | .ok evs _ => evs
  | .exn evs _ => evs

/-- Rest of the stream left by a `DemuxOut`. -/
def demuxRest : DemuxOut → List ℕ
  | .ok _ r => r
  | .exn _ r => r

/-- Whether a `DemuxOut` is a normal return. -/
def demuxOk : DemuxOut → Bool
  | .ok _ _ => true
  | .exn _ _ => false

/-- The audio-sink events among a list of part events. -/
def audioEvents (evs : List PartEvent) : List PartEvent :=
  evs.filter fun e => match e with | .audio _ _ => true | _ => false

/-- Body loop of `parse_multipart_stream` (scripts/play_waifu.py lines
150-156): read up to 64 KiB at a time until `remaining` is exhausted, each
chunk going to `write_bytes`; an empty read models the `return` on a stream
that ends early (second component `none`). -/
def pwBody (acc : List (List ℕ)) (remaining : ℤ) :
    ℕ → List ℕ → List (List ℕ) × Option (List ℕ)
  | 0, _ => (acc, none)
  | fuel + 1, s =>
    if remaining > 0 then
      let chunk := s.take (min remaining 65536).toNat
      if chunk = [] then (acc, none)
      else pwBody (acc ++ [chunk]) (remaining - chunk.length) fuel (s.drop chunk.length)
    else (acc, some s)

/-- Outcome of `parse_multipart_stream`: normal return with the chunks passed
to `write_bytes` in order and the unread rest, or a propagated `ValueError`. -/
inductive PwOut where
  | ret (writes : List (List ℕ)) (rest : List ℕ)
  | exn (writes : List (List ℕ)) (rest : List ℕ)
deriving DecidableEq

/-- Per-part loop of `parse_multipart_stream` (scripts/play_waifu.py lines
137-169). -/
def pwParts (bline endMarker : List ℕ) (acc : List (List ℕ)) :
    ℕ → List ℕ → PwOut
  | 0, s => .ret acc s
  | fuel + 1, s =>
    match readPartHeaders [] (s.length + 1) s with
    | none => .ret acc []
    | some (h, s1) =>
      match pyInt (hgetD h (ascii "content-length") (ascii "0")) with
      | none => .exn acc s1
      | some length =>
        match pwBody acc length (s1.length + 1) s1 with
        | (acc', none) => .ret acc' []
        | (acc', some s2) =>
          let s3 := s2.drop 2
          let r := readLine s3
          if r.1 = [] then .ret acc' r.2
          else if stripWs r.1 = endMarker then .ret acc' r.2
          else if stripWs r.1 ≠ bline then .ret acc' r.2
          else pwParts bline endMarker acc' fuel r.2

/-- `parse_multipart_stream` of scripts/play_waifu.py (lines 122-169). -/
def parse_multipart_stream (boundary s : List ℕ) : PwOut :=
  let bline := ascii "--" ++ boundary
  let endMarker := ascii "--" ++ boundary ++ ascii "--"
  match syncBoundary bline (s.length + 1) s with
  | none => .ret [] []
  | some s1 => pwParts bline endMarker [] (s1.length + 1) s1

/-- Response handling of `stream_multipart_to_player` (scripts/play_waifu.py
lines 183-209): boundary discovery via `pwBoundary`; on failure the
`RuntimeError` is raised before `parse_multipart_stream` reads any byte
(`none`, stream untouched). -/
def stream_multipart_to_player (ctypeHdr s : List ℕ) : Option PwOut :=
  match pwBoundary ctypeHdr with
  | none => none
  | some b => some (parse_multipart_stream b s)

/-- Python `bytes.split(sep)` for a non-empty `sep`: leftmost,
non-overlapping, keeping empty pieces. -/
def splitOnSep (sep : List ℕ) : ℕ → List ℕ → List (List ℕ)
  | 0, l => [l]
  | fuel + 1, l =>
    match findSubIdx? sep l with
    | none => [l]
    | some i => l.take i :: splitOnSep sep fuel (l.drop (i + sep.length))

/-- Python `l.split(sep, 1)` at the first occurrence; `none` when `sep` does
not occur (the `in` test of the source). -/
def splitOnceSep (sep l : List ℕ) : Option (List ℕ × List ℕ) :=
  match findSubIdx? sep l with
  | none => none
  | some i => some (l.take i, l.drop (i + sep.length))

/-- Processing of one boundary-delimited segment in the whole-buffer mode
(scripts/mic_convo.py lines 131-152): strip; skip empty and terminal
segments; drop a leading CRLF (dead after the strip, kept for fidelity) and a
trailing `--`; require a CRLF-CRLF header/body separator, skipping segments
without one; split header lines on CRLF, skipping empty lines; route. -/
def bufProcessPart (p0 : List ℕ) : Option PartEvent :=
  let p1 := stripWs p0
  if p1 = [] ∨ p1 = ascii "--" then none
  else
    let p2 := if listStarts [13, 10] p1 then p1.drop 2 else p1
    let p3 := if listStarts [45, 45] p2.reverse then p2.take (p2.length - 2) else p2
    match splitOnceSep [13, 10, 13, 10] p3 with
    | none => none
    | some (hb, body) =>
      let headers := ((splitOnSep [13, 10] (hb.length + 1) hb).filter
        fun ln => !ln.isEmpty).map parseHeaderLine
      routeBuffered (hgetD headers (ascii "content-type") []) body

/-- `parse_multipart` of scripts/mic_convo.py lines 119-152, duplicated in
scripts/prod_mic_convo.py lines 106-137: boundary discovery (raising
`RuntimeError` before `resp.read()` when absent — `none`), then the whole
body is buffered, split on `--boundary`, and each segment processed and
routed. -/
def parse_multipart (ctypeHdr xBoundary body : List ℕ) : Option (List PartEvent) :=
  match findBoundary ctypeHdr xBoundary with
  | none => none
  | some b =>
    let sep := ascii "--" ++ b
    some ((splitOnSep sep (body.length + 1) body).filterMap bufProcessPart)

/-- Number of response-body bytes `parse_multipart` consumes: the
`RuntimeError` for a missing boundary is raised before the single
`resp.read()`, which otherwise buffers the whole body. -/
def parse_multipart_consumed (ctypeHdr xBoundary body : List ℕ) : ℕ :=
  match findBoundary ctypeHdr xBoundary with
  | none => 0
  | some _ => body.length

/-! ## Caller-side folding of parts (`convo_once`)

`convo_once` (scripts/mic_convo.py lines 191-209) hands `parse_multipart` two
closures: `on_json` parses the body and overwrites `result["transcript"]`
(and `result["assistant"]` when the JSON object carries an `llm` string), a
parse failure leaving both untouched; `on_audio` overwrites `audio_bin`.
`main` of scripts/prod_mic_convo.py (lines 222-237) does the same with its
`result`/`audio` dicts. JSON parsing is abstract here (`parse`), as is the
extraction of the optional `llm` field (`jllm`). -/

/-- The caller's mutable result: `result["transcript"]`,
`result["assistant"]`, and the `audio_bin` dict. -/
structure ConvoState (J : Type) where
  transcript : Option J
  assistant : Option (List ℕ)
  audioBuf : Option (List ℕ)
  audioCtype : List ℕ

/-- Initial dicts of `convo_once`. -/
def convoInit (J : Type) : ConvoState J :=
  ⟨none, none, none, ascii "application/octet-stream"⟩

/-- Effect of one routed part on the caller's result. -/
def convoStep {J : Type} (parse : List ℕ → Option J) (jllm : J → Option (List ℕ))
    (st : ConvoState J) : PartEvent → ConvoState J
  | .json b =>
    match parse b with
    | some j =>
      let asst := match jllm j with | some a => some a | none => st.assistant
      { st with transcript := some j, assistant := asst }
    | none => st
  | .audio b ct => { st with audioBuf := some b, audioCtype := ct }

/-- The caller's result after all parts have been routed. -/
def convoFold {J : Type} (parse : List ℕ → Option J) (jllm : J → Option (List ℕ))
    (st : ConvoState J) (evs : List PartEvent) : ConvoState J :=
  evs.foldl (convoStep parse jllm) st

/-- Specification view: the payload of the last audio part of an envelope. -/
def lastAudioPayload (evs : List PartEvent) : Option (List ℕ) :=
  evs.reverse.findSome? fun e => match e with | .audio b _ => some b | _ => none

/-- Specification view: the declared type of the last audio part. -/
def lastAudioCtype (evs : List PartEvent) : Option (List ℕ) :=
  evs.reverse.findSome? fun e => match e with | .audio _ ct => some ct | _ => none

/-- Specification view: the parse of the last JSON part that parses. -/
def lastParsedJson {J : Type} (parse : List ℕ → Option J)
    (evs : List PartEvent) : Option J :=
  evs.reverse.findSome? fun e => match e with | .json b => parse b | _ => none

/-! ## Concrete wire inputs used by the theorems -/

/-- The JSON body of the spec's synthetic envelope. -/
def c1json : List ℕ := ascii "\x7b\"text\":\"hello\"\x7d"

/-- The spec's partial-success stream: a valid 16-byte JSON part, then a part
declaring `content-length: 1000` of which only 400 bytes are on the wire. -/
def c1stream : List ℕ :=
  ascii "--b\r\ncontent-type: application/json\r\ncontent-length: 16\r\n\r\n" ++ c1json ++
  ascii "\r\n--b\r\ncontent-type: audio/wav\r\ncontent-length: 1000\r\n\r\n" ++
  List.replicate 400 65

/-- A stream whose first part has no `content-length` header (and an empty
body), followed by a complete 3-byte part and the terminal boundary. -/
def noClStream : List ℕ :=
  ascii "--b\r\ncontent-type: audio/wav\r\n\r\n\r\n--b\r\ncontent-type: audio/wav\r\ncontent-length: 3\r\n\r\nabc\r\n--b--\r\n"

/-- A stream with one valid JSON part followed by a line that is neither the
boundary nor the terminal marker, with further bytes after it. -/
def badLineStream : List ℕ :=
  ascii "--b\r\ncontent-type: application/json\r\ncontent-length: 2\r\n\r\n\x7b\x7d\r\nGARBAGE\r\nleftover"

/-- A streaming-mode part whose header/body blank-line separator is a bare
LF. -/
def lfStream : List ℕ :=
  ascii "--b\r\ncontent-type: audio/mpeg\r\ncontent-length: 2\r\n\nab\r\n--b--\r\n"

/-- A routed streaming-mode part whose blank-line separator is a bare LF. -/
def lfCtStream : List ℕ :=
  ascii "--b\r\ncontent-type: application/json\r\ncontent-length: 2\r\n\n\x7b\x7d\r\n--b--\r\n"

/-- A buffered-mode body whose only part separates headers from body with a
lone LF blank line. -/
def lfBufBody : List ℕ :=
  ascii "--b\r\ncontent-type: application/json\n\n\x7b\x7d\r\n--b--"

/-- The same buffered-mode part with a CRLF blank line. -/
def crlfBufBody : List ℕ :=
  ascii "--b\r\ncontent-type: application/json\r\n\r\n\x7b\x7d\r\n--b--"

/-- The Content-Type header of the synthetic multipart responses. -/
def mpCtype : List ℕ := ascii "multipart/mixed; boundary=b"

/-! ## Theorems -/

theorem listStarts_append (p r : List ℕ) : listStarts p (p ++ r) = true := by
  induction p with
  | nil => rfl
  | cons a p ih => simp [listStarts, ih]

theorem dropLit_append (p r : List ℕ) : dropLit p (p ++ r) = some r := by
  simp [dropLit, listStarts_append]

theorem readU16_u16le (n : ℕ) (r : List ℕ) :
    readU16 (u16le n ++ r) = some (u16val n, r) := rfl

theorem readU32_u32le (n : ℕ) (r : List ℕ) :
    readU32 (u32le n ++ r) = some (u32val n, r) := rfl

theorem u16val_eq (n : ℕ) (h : n < 65536) : u16val n = n := by
  unfold u16val; omega

theorem u32val_eq (n : ℕ) (h : n < 4294967296) : u32val n = n := by
  unfold u32val; omega

theorem pcmBytes_length (xs : List ℤ) : (pcmBytes xs).length = 2 * xs.length := by
  induction xs with
  | nil => rfl
  | cons x xs ih => simp [pcmBytes, s16le, u16le, ih]; omega

theorem s16_roundtrip (x : ℤ) (h1 : -32768 ≤ x) (h2 : x < 32768) :
    s16dec ((x % 65536).toNat % 256) ((x % 65536).toNat / 256 % 256) = x := by
  have h0 : (0 : ℤ) ≤ x % 65536 := Int.emod_nonneg x (by norm_num)
  have h3 : x % 65536 < 65536 := Int.emod_lt_of_pos x (by norm_num)
  have h4 : ((x % 65536).toNat : ℤ) = x % 65536 := Int.toNat_of_nonneg h0
  simp only [s16dec]
  split <;> push_cast <;> omega

theorem pcmDecode_pcmBytes (xs : List ℤ) (hs : ∀ x ∈ xs, -32768 ≤ x ∧ x < 32768) :
    pcmDecode (pcmBytes xs) = some xs := by
  induction xs with
  | nil => rfl
  | cons x xs ih =>
    have hx := hs x (by simp)
    have ih' := ih (fun y hy => hs y (by simp [hy]))
    simp [pcmBytes, s16le, u16le, pcmDecode, ih', s16_roundtrip x hx.1 hx.2]

/-- C7: for every finite int16 sample sequence and every sample rate (within
the container's 32-bit header fields), encoding to the WAV container (PCM16,
mono, little-endian) and decoding back yields exactly the original samples and
rate. Determinism of the encoder is definitional: `wavEncode` is a pure
function of `(rate, samples)` alone — the container has no timestamp or random
padding — so two encodings of the same sequence are byte-identical. -/
theorem c7_wav_roundtrip (rate : ℕ) (samples : List ℤ)
    (hr : rate * 2 < 4294967296)
    (hl : 36 + 2 * samples.length < 4294967296)
    (hs : ∀ x ∈ samples, -32768 ≤ x ∧ x < 32768) :
    wavDecode (wavEncode rate samples) = some (rate, samples) := by
  have hr' : rate < 4294967296 := by omega
  have hd : 2 * samples.length < 4294967296 := by omega
  have hpc : pcmDecode (pcmBytes samples) = some samples := pcmDecode_pcmBytes samples hs
  have c16 : (16 : ℕ) < 4294967296 := by norm_num
  have c16' : (16 : ℕ) < 65536 := by norm_num
  have c1 : (1 : ℕ) < 65536 := by norm_num
  have c2 : (2 : ℕ) < 65536 := by norm_num
  simp only [wavEncode, wavDecode, List.append_assoc, dropLit_append, readU32_u32le,
    readU16_u16le, Option.some_bind]
  rw [u32val_eq _ hl, u32val_eq _ c16, u16val_eq _ c1, u32val_eq _ hr',
    u32val_eq _ hr, u16val_eq _ c2, u16val_eq _ c16', u32val_eq _ hd]
  simp [pcmBytes_length, hpc]

/-- Closed instance of `c7_wav_roundtrip` at a concrete sample sequence. -/
theorem c7_wav_roundtrip_witness :
    wavDecode (wavEncode 16000 [0, 1, -1, 32767, -32768]) =
      some (16000, [0, 1, -1, 32767, -32768]) :=
  c7_wav_roundtrip 16000 [0, 1, -1, 32767, -32768] (by norm_num) (by norm_num)
    (by intro x hx; fin_cases hx <;> norm_num)

theorem levelGe_00_start : levelGe [0, 0] (0.02 : ℚ) = false := by
  norm_num [levelGe, meanSq, vadEps]

theorem levelGe_00_stop : levelGe [0, 0] (0.01 : ℚ) = false := by
  norm_num [levelGe, meanSq, vadEps]

theorem levelGe_11_start : levelGe [1, -1] (0.02 : ℚ) = false := by
  norm_num [levelGe, meanSq, vadEps]

theorem levelGe_loud_start : levelGe [20000, 20000] (0.02 : ℚ) = true := by
  norm_num [levelGe, meanSq, vadEps]

theorem levelGe_loud4_start : levelGe [20000, 20000, 20000, 20000] (0.02 : ℚ) = true := by
  norm_num [levelGe, meanSq, vadEps]

theorem capCfg_start : capCfg.start_threshold = (0.02 : ℚ) := rfl

theorem capCfg_max : capCfg.max_samples = 4 := by
  norm_num [capCfg, VadCfg.max_samples, pyTrunc]

theorem capCfg_min : capCfg.min_speech_samples = 0 := by
  norm_num [capCfg, VadCfg.min_speech_samples, pyTrunc]

theorem stallCfg_start : stallCfg.start_threshold = (0.02 : ℚ) := rfl

theorem stallCfg_limit : stallCfg.silence_limit_samples = 2 := by
  norm_num [stallCfg, VadCfg.silence_limit_samples, pyTrunc]

theorem stallCfg_min : stallCfg.min_speech_samples = 4 := by
  norm_num [stallCfg, VadCfg.min_speech_samples, pyTrunc]

theorem stallCfgEq_stop : stallCfgEq.stop_threshold = (0.01 : ℚ) := rfl

theorem stallCfgEq_limit : stallCfgEq.silence_limit_samples = 2 := by
  norm_num [stallCfgEq, VadCfg.silence_limit_samples, pyTrunc]

theorem stallCfgEq_min : stallCfgEq.min_speech_samples = 0 := by
  norm_num [stallCfgEq, VadCfg.min_speech_samples, pyTrunc]

theorem micConvoCfg_start : micConvoCfg.start_threshold = (0.02 : ℚ) := rfl

theorem vadRun_silent_pending (c : VadCfg) :
    ∀ (evs : List VadEvent) (s : VadState), s.started = false →
      (∀ e ∈ evs, silentEvent c e = true) →
      ∃ n, vadRun c s evs =
        .pending ⟨false, s.speech_start_ts, s.last_voice_ts, s.collected, n⟩ := by
  intro evs
  induction evs with
  | nil =>
    intro s hs _
    exact ⟨s.total_samples, by cases s; simp_all [vadRun]⟩
  | cons e es ih =>
    intro s hs h
    have he : silentEvent c e = true := h e (by simp)
    have hes : ∀ x ∈ es, silentEvent c x = true := fun x hx => h x (by simp [hx])
    cases e with
    | timeout t =>
      have hst : vadStep c s (.timeout t) = .next s := by
        simp [vadStep, hs]
      simpa [vadRun, hst] using ih s hs hes
    | frame t xs =>
      have hl : levelGe xs c.start_threshold = false := by
        simpa [silentEvent] using he
      have hst : vadStep c s (.frame t xs) =
          .next { s with total_samples := s.total_samples + xs.length } := by
        simp [vadStep, hs, hl]
      simpa [vadRun, hst] using
        ih { s with total_samples := s.total_samples + xs.length } hs hes

/-- C6: the claim says all-silent input of length at most `max_seconds` makes
the capture function return the empty byte string as a normal value. The code
never returns on such input: a silent frame in the idle state executes
`continue`, skipping the hard-cap check, and both `break` paths require
`started`, so the loop never exits and `record_from_mic` never reaches its
`return b""` line. On every finite all-silent observation sequence (of any
length, in particular at most `max_seconds`) the loop is still blocked in
`q.get` with nothing collected. -/
theorem c6_silent_input_never_returns (c : VadCfg) (evs : List VadEvent)
    (h : ∀ e ∈ evs, silentEvent c e = true) :
    record_from_mic c evs = none ∧
      (runState (vadRun c vadInit evs)).started = false ∧
      (runState (vadRun c vadInit evs)).collected = [] := by
  obtain ⟨n, hrun⟩ := vadRun_silent_pending c evs vadInit rfl h
  have hrun' : vadRun c vadInit evs = .pending ⟨false, 0, 0, [], n⟩ := by
    simpa [vadInit] using hrun
  refine ⟨?_, ?_, ?_⟩ <;> simp [record_from_mic, runState, hrun']

/-- Closed instance of `c6_silent_input_never_returns`: three silent
observations under the default mic_convo configuration; the capture loop has
not returned. -/
theorem c6_silent_witness :
    record_from_mic micConvoCfg [.frame 0 [0, 0], .timeout 1, .frame 2 [1, -1]] = none ∧
      (runState (vadRun micConvoCfg vadInit
        [.frame 0 [0, 0], .timeout 1, .frame 2 [1, -1]])).started = false ∧
      (runState (vadRun micConvoCfg vadInit
        [.frame 0 [0, 0], .timeout 1, .frame 2 [1, -1]])).collected = [] :=
  c6_silent_input_never_returns micConvoCfg
    [.frame 0 [0, 0], .timeout 1, .frame 2 [1, -1]]
    (by simp [silentEvent, micConvoCfg_start, levelGe_00_start, levelGe_11_start])

/-- C2 counterexample: the claim says the hard cap fires exactly when the
count of admitted samples (appended after the start crossing) reaches
`max_seconds * samplerate`. Under `capCfg` (`max_samples = 4`), a silent
2-sample frame followed by a loud 2-sample frame force-terminates via the cap
with only 2 admitted samples, because `total_samples` also counts the frame
discarded before the crossing. -/
theorem c2_cap_counterexample :
    runReason (vadRun capCfg vadInit
        [.frame 0 [0, 0], .frame (1 / 10) [20000, 20000]]) = some .cap ∧
      admittedSamples (runState (vadRun capCfg vadInit
        [.frame 0 [0, 0], .frame (1 / 10) [20000, 20000]])) = 2 ∧
      capCfg.max_samples = 4 ∧
      (admittedSamples (runState (vadRun capCfg vadInit
        [.frame 0 [0, 0], .frame (1 / 10) [20000, 20000]])) : ℤ) < capCfg.max_samples := by
  simp only [vadRun, vadStep, vadInit, capCfg_start, levelGe_00_start, levelGe_loud_start,
    capCfg_max]
  norm_num [runReason, runState, admittedSamples]

/-- C2 as amended: the hard cap fires on a frame exactly when the frame is not
discarded in the idle state (the loop is already started, or this frame
crosses the start threshold), the total count of dequeued samples — including
frames discarded before the start crossing — reaches `max_samples`, and the
min-speech/trailing-silence termination does not fire on the same frame; a
`queue.Empty` observation never fires the cap. -/
theorem c2_cap_total_samples (c : VadCfg) (s : VadState) (t : ℚ) (xs : List ℤ) :
    (stepReason (vadStep c s (.frame t xs)) = some .cap ↔
      (s.started = true ∨ levelGe xs c.start_threshold = true) ∧
        ((s.total_samples + xs.length : ℤ) ≥ c.max_samples) ∧
        (s.started = true →
          ¬(pyTrunc ((t - s.speech_start_ts) * c.samplerate) ≥ c.min_speech_samples ∧
            pyTrunc ((t - (if levelGe xs c.stop_threshold then t else s.last_voice_ts)) *
              c.samplerate) ≥ c.silence_limit_samples))) ∧
      stepReason (vadStep c s (.timeout t)) ≠ some .cap := by
  constructor
  · cases hs : s.started
    · simp only [vadStep, hs]
      cases hl : levelGe xs c.start_threshold
      · simp_all [stepReason]
      · simp only [hl, if_true]
        split_ifs <;> simp_all [stepReason]
    · simp only [vadStep, hs]
      split_ifs <;> simp_all [stepReason]
  · simp only [vadStep]
    split_ifs <;> simp [stepReason]

/-- Closed instance of `c2_cap_total_samples`: a single 4-sample loud frame
from the idle state reaches `max_samples = 4` and fires the cap. -/
theorem c2_cap_witness :
    stepReason (vadStep capCfg vadInit
      (.frame 0 [20000, 20000, 20000, 20000])) = some .cap :=
  (c2_cap_total_samples capCfg vadInit 0 [20000, 20000, 20000, 20000]).1.mpr
    (by
      refine ⟨Or.inr ?_, ?_, ?_⟩
      · rw [capCfg_start]; exact levelGe_loud4_start
      · rw [capCfg_max]; norm_num [vadInit]
      · simp [vadInit])

/-- C10: on the stall path (`queue.Empty` while recording) the loop breaks iff
wall-clock time since `last_voice_ts`, scaled by the sample rate, strictly
exceeds `silence_limit_samples` — with no min-speech requirement — whereas the
in-frame termination requires both `speech_dur_samples >= min_speech_samples`
and `since_voice_samples >= silence_limit_samples`. Consequently a stalled
source can end an utterance shorter than `min_speech_samples` (concrete run
under `stallCfg`), and at the exact trailing-silence boundary the stall path
(strict `>`) does not break while the frame path (`>=`) does (concrete states
under `stallCfgEq`). -/
theorem c10_stall_termination :
    (∀ (c : VadCfg) (s : VadState) (t : ℚ),
      stepReason (vadStep c s (.timeout t)) = some .stall ↔
        s.started = true ∧
          (t - s.last_voice_ts) * c.samplerate > (c.silence_limit_samples : ℚ)) ∧
      (∀ (c : VadCfg) (s : VadState) (t : ℚ) (xs : List ℤ),
        stepReason (vadStep c s (.frame t xs)) = some .silence ↔
          s.started = true ∧
            pyTrunc ((t - s.speech_start_ts) * c.samplerate) ≥ c.min_speech_samples ∧
            pyTrunc ((t - (if levelGe xs c.stop_threshold then t else s.last_voice_ts)) *
              c.samplerate) ≥ c.silence_limit_samples) ∧
      (vadRun stallCfg vadInit [.frame 0 [20000, 20000], .timeout 1] =
          .broke .stall ⟨true, 0, 0, [[20000, 20000]], 2⟩ [] ∧
        (admittedSamples ⟨true, 0, 0, [[20000, 20000]], 2⟩ : ℤ) <
          stallCfg.min_speech_samples) ∧
      stepReason (vadStep stallCfgEq ⟨true, 0, 0, [[20000, 20000]], 2⟩
          (.timeout (1 / 2))) = none ∧
      stepReason (vadStep stallCfgEq ⟨true, 0, 0, [[20000, 20000]], 2⟩
          (.frame (1 / 2) [0, 0])) = some .silence := by
  refine ⟨?_, ?_, ⟨?_, ?_⟩, ?_, ?_⟩
  · intro c s t
    simp only [vadStep]
    split_ifs with h <;> simp_all [stepReason]
  · intro c s t xs
    cases hs : s.started
    · simp only [vadStep, hs]
      cases hl : levelGe xs c.start_threshold
      · simp_all [stepReason]
      · simp only [hl, if_true]
        split_ifs <;> simp_all [stepReason]
    · simp only [vadStep, hs]
      split_ifs <;> simp_all [stepReason]
  · simp only [vadRun, vadStep, vadInit, stallCfg_start, levelGe_loud_start, stallCfg_limit,
      stallCfg_min]
    norm_num [stallCfg, VadCfg.max_samples, VadCfg.min_speech_samples,
      VadCfg.silence_limit_samples, pyTrunc]
  · rw [stallCfg_min]; norm_num [admittedSamples]
  · simp only [vadStep, stallCfgEq_limit]
    norm_num [stepReason, stallCfgEq]
  · simp only [vadStep, stallCfgEq_stop, levelGe_00_stop, stallCfgEq_limit, stallCfgEq_min]
    norm_num [stepReason, stallCfgEq, pyTrunc]

theorem listStartsLower_eq (pat : List ℕ) :
    ∀ l : List ℕ, listStartsLower pat l = listStarts pat (lowerAll l) := by
  induction pat with
  | nil => intro l; cases l <;> simp [listStartsLower, listStarts, lowerAll]
  | cons a p ih =>
    intro l
    cases l with
    | nil => rfl
    | cons b t =>
      have h := ih t
      simp only [lowerAll] at h ⊢
      simp [listStartsLower, listStarts, h]

theorem starts_of_lower_fixed (pat : List ℕ)
    (hp : pat.all (fun a => lowerByte a == a) = true) :
    ∀ l : List ℕ, listStarts pat l = true → listStarts pat (lowerAll l) = true := by
  induction pat with
  | nil => intro l _; simp [listStarts]
  | cons a p ih =>
    intro l h
    cases l with
    | nil => simp [listStarts] at h
    | cons b t =>
      simp only [List.all_cons, Bool.and_eq_true, beq_iff_eq] at hp
      simp only [listStarts, Bool.and_eq_true, beq_iff_eq] at h
      simp only [lowerAll, List.map_cons, listStarts, Bool.and_eq_true, beq_iff_eq]
      refine ⟨?_, ih hp.2 t h.2⟩
      rw [← h.1, hp.1]

theorem reSearchBoundary_none :
    ∀ ct : List ℕ, containsSub (ascii "boundary=") (lowerAll ct) = false →
      reSearchBoundary ct = none := by
  intro ct
  induction ct with
  | nil => intro _; rfl
  | cons b t ih =>
    intro h
    rw [show lowerAll (b :: t) = lowerByte b :: lowerAll t from rfl] at h
    simp only [containsSub, Bool.or_eq_false_iff] at h
    obtain ⟨h1, h2⟩ := h
    simp only [reSearchBoundary, listStartsLower_eq]
    rw [show lowerAll (b :: t) = lowerByte b :: lowerAll t from rfl]
    simp [h1, ih h2]

theorem findSub_boundary_none :
    ∀ ct : List ℕ, containsSub (ascii "boundary=") (lowerAll ct) = false →
      findSubIdx? (ascii "boundary=") ct = none := by
  intro ct
  induction ct with
  | nil => intro _; rfl
  | cons b t ih =>
    intro h
    rw [show lowerAll (b :: t) = lowerByte b :: lowerAll t from rfl] at h
    simp only [containsSub, Bool.or_eq_false_iff] at h
    obtain ⟨h1, h2⟩ := h
    have hcs : listStarts (ascii "boundary=") (b :: t) = false := by
      cases hq : listStarts (ascii "boundary=") (b :: t)
      · rfl
      · have := starts_of_lower_fixed (ascii "boundary=") (by decide) (b :: t) hq
        rw [show lowerAll (b :: t) = lowerByte b :: lowerAll t from rfl] at this
        rw [this] at h1
        exact absurd h1 (by simp)
    simp [findSubIdx?, hcs, ih h2]

/-- C5: a response whose top-level Content-Type carries no boundary parameter
(no occurrence of `boundary=`, case-insensitively) and whose fallback
`X-Boundary` header strips to the empty string is rejected by every
demultiplexer entry point — the buffered `parse_multipart`, the streaming
`parse_multipart` of call_transcribe, and `stream_multipart_to_player` — with
a `RuntimeError` raised before any body byte is read: zero bytes consumed, no
part delivered to any sink. -/
theorem c5_boundary_absent_fails_fast (ctypeHdr xBoundary body s : List ℕ)
    (hct : containsSub (ascii "boundary=") (lowerAll ctypeHdr) = false)
    (hxb : stripWs xBoundary = []) :
    parse_multipart ctypeHdr xBoundary body = none ∧
      parse_multipart_consumed ctypeHdr xBoundary body = 0 ∧
      parse_multipart_ct ctypeHdr xBoundary s = none ∧
      stream_multipart_to_player ctypeHdr s = none := by
  have h1 := reSearchBoundary_none ctypeHdr hct
  have h2 := findSub_boundary_none ctypeHdr hct
  refine ⟨?_, ?_, ?_, ?_⟩ <;>
    simp [parse_multipart, parse_multipart_consumed, parse_multipart_ct,
      stream_multipart_to_player, findBoundary, pwBoundary, h1, h2, hxb]

/-- Closed instance of `c5_boundary_absent_fails_fast` at
`Content-Type: application/json` with no fallback header. -/
theorem c5_boundary_absent_witness :
    parse_multipart (ascii "application/json") [] [1, 2, 3] = none ∧
      parse_multipart_consumed (ascii "application/json") [] [1, 2, 3] = 0 ∧
      parse_multipart_ct (ascii "application/json") [] [9, 9] = none ∧
      stream_multipart_to_player (ascii "application/json") [9, 9] = none :=
  c5_boundary_absent_fails_fast (ascii "application/json") [] [1, 2, 3] [9, 9]
    (by decide) (by decide)

/-- C8: the part routing policy, identical in both demultiplexer modes: a
content type containing `application/json` goes to the JSON sink as raw
bytes; otherwise one containing `audio/` or equal to
`application/octet-stream` goes to the binary sink together with the declared
type; anything else is dropped with no sink invoked and no error. -/
theorem c8_routing_policy (pctype body : List ℕ) :
    routeBuffered pctype body = routeStream pctype body ∧
      (containsSub (ascii "application/json") pctype = true →
        routeBuffered pctype body = some (.json body)) ∧
      (containsSub (ascii "application/json") pctype = false →
        (containsSub (ascii "audio/") pctype = true ∨
          pctype = ascii "application/octet-stream") →
        routeBuffered pctype body = some (.audio body pctype)) ∧
      (containsSub (ascii "application/json") pctype = false →
        containsSub (ascii "audio/") pctype = false →
        pctype ≠ ascii "application/octet-stream" →
        routeBuffered pctype body = none) := by
  refine ⟨rfl, ?_, ?_, ?_⟩
  · intro h1
    simp [routeBuffered, h1]
  · intro h1 h2
    rcases h2 with h2 | h2
    · simp [routeBuffered, h1, h2]
    · subst h2
      simp [routeBuffered, h1]
  · intro h1 h2 h3
    simp [routeBuffered, h1, h2, beq_iff_eq, h3]

/-- Closed instance of `c8_routing_policy`: a JSON part with a charset
parameter still goes to the JSON sink. -/
theorem c8_routing_witness :
    routeBuffered (ascii "application/json; charset=utf-8") (ascii "x") =
      some (.json (ascii "x")) :=
  (c8_routing_policy (ascii "application/json; charset=utf-8") (ascii "x")).2.1
    (by decide)

set_option maxRecDepth 40000 in
/-- C1 counterexample: on the spec's partial-success stream (valid JSON part,
then a part declaring 1000 bytes with only 400 available) the streaming
demultiplexer raises nothing and delivers the JSON part, but it also hands
the 400 available bytes of the truncated part to the audio sink — `on_audio`
is called before the truncation is detected — contradicting the claim that
the truncated part is not delivered. -/
theorem c1_truncated_part_reaches_audio_sink :
    (parse_multipart_ct mpCtype [] c1stream).map
        (fun o => audioEvents (demuxEvents o)) =
      some [.audio (List.replicate 400 65) (ascii "audio/wav")] ∧
      [PartEvent.audio (List.replicate 400 65) (ascii "audio/wav")] ≠ [] := by
  decide

set_option maxRecDepth 40000 in
/-- C1 as amended: on that stream the demultiplexer delivers the JSON part to
the JSON sink, passes the 400 available bytes of the truncated second part to
the audio sink together with its declared content type, and returns normally
without raising, consuming the whole stream. -/
theorem c1_partial_success_amended :
    parse_multipart_ct mpCtype [] c1stream =
      some (.ok [.json c1json, .audio (List.replicate 400 65) (ascii "audio/wav")] []) ∧
      (parse_multipart_ct mpCtype [] c1stream).map demuxOk = some true := by
  decide

set_option maxRecDepth 20000 in
/-- C3 counterexample: a part lacking a `content-length` header is not a
framing error: `headers.get('content-length', '0')` defaults it to zero, the
part is routed with an empty body, and reading continues — the following part
is still recovered, so the function neither stops at the header-less part nor
returns only previously recovered parts. -/
theorem c3_missing_length_not_framing_error :
    parse_multipart_ct mpCtype [] noClStream =
      some (.ok [.audio [] (ascii "audio/wav"),
        .audio (ascii "abc") (ascii "audio/wav")] []) ∧
      (parse_multipart_ct mpCtype [] noClStream).map
        (fun o => (demuxEvents o).length) = some 2 := by
  decide

set_option maxRecDepth 20000 in
/-- C3 as amended: the `content-length` header is optional with default `0` —
a part lacking it is parsed as a zero-length body, routed, and parsing
continues (in both streaming parsers, without raising); when the header is
present it is authoritative: exactly that many bytes are read, the trailing
CRLF is consumed, and the next line must equal the boundary marker or the
terminal boundary — any other value stops reading and returns only the parts
already recovered, leaving the rest of the stream unread. -/
theorem c3_length_framing_amended :
    (parse_multipart_ct mpCtype [] noClStream).map demuxOk = some true ∧
      parse_multipart_stream (ascii "b") noClStream = .ret [ascii "abc"] [] ∧
      parse_multipart_ct mpCtype [] badLineStream =
        some (.ok [.json (ascii "\x7b\x7d")] (ascii "leftover")) := by
  decide

set_option maxRecDepth 20000 in
/-- C4 counterexample: in the whole-buffer split mode, a part whose headers
and body are separated by a lone LF-terminated blank line is skipped — no
sink is invoked — because the mode only searches for a CRLF-CRLF separator;
the identical part with a CRLF blank line is parsed and routed. -/
theorem c4_buffered_lf_skipped :
    parse_multipart mpCtype [] lfBufBody = some [] ∧
      parse_multipart mpCtype [] crlfBufBody = some [.json (ascii "\x7b\x7d")] := by
  decide

set_option maxRecDepth 20000 in
/-- C4 as amended: only the length-framed streaming mode tolerates a bare LF
blank line when locating the header/body separator (the part is parsed and
its body delivered, in both streaming parsers); the whole-buffer split mode
requires CRLF-CRLF and skips a lone-LF part rather than routing it. -/
theorem c4_lf_streaming_only :
    parse_multipart_stream (ascii "b") lfStream = .ret [ascii "ab"] [] ∧
      parse_multipart_ct mpCtype [] lfCtStream =
        some (.ok [.json (ascii "\x7b\x7d")] []) ∧
      parse_multipart mpCtype [] lfBufBody = some [] := by
  decide

/-- C9: at most one part of each kind is meaningful to the caller: after
`convo_once` folds the routed parts into its dicts, the audio buffer holds
exactly the payload of the last audio part and the transcript exactly the
parse of the last JSON part that parses — a single value of each kind, with
every other part of the same kind leaving no trace in the result. -/
theorem c9_single_meaningful_value {J : Type} (parse : List ℕ → Option J)
    (jllm : J → Option (List ℕ)) (evs : List PartEvent) :
    (convoFold parse jllm (convoInit J) evs).audioBuf = lastAudioPayload evs ∧
      (convoFold parse jllm (convoInit J) evs).transcript = lastParsedJson parse evs := by
  induction evs using List.reverseRecOn with
  | nil => exact ⟨rfl, rfl⟩
  | append_singleton evs e ih =>
    have hf : convoFold parse jllm (convoInit J) (evs ++ [e]) =
        convoStep parse jllm (convoFold parse jllm (convoInit J) evs) e := by
      simp [convoFold, List.foldl_append]
    cases e with
    | json b =>
      have ha : lastAudioPayload (evs ++ [PartEvent.json b]) = lastAudioPayload evs := by
        simp [lastAudioPayload, List.reverse_append]
      have hj : lastParsedJson parse (evs ++ [PartEvent.json b]) =
          match parse b with
          | some j => some j
          | none => lastParsedJson parse evs := by
        cases hp : parse b <;>
          simp [lastParsedJson, List.reverse_append, List.findSome?_cons, hp]
      rw [hf, ha, hj]
      cases hp : parse b <;> simp [convoStep, hp, ih.1, ih.2]
    | audio b ct =>
      have ha : lastAudioPayload (evs ++ [PartEvent.audio b ct]) = some b := by
        simp [lastAudioPayload, List.reverse_append, List.findSome?_cons]
      have hj : lastParsedJson parse (evs ++ [PartEvent.audio b ct]) =
          lastParsedJson parse evs := by
        simp [lastParsedJson, List.reverse_append, List.findSome?_cons]
      rw [hf, ha, hj]
      exact ⟨by simp [convoStep], by simp [convoStep, ih.2]⟩


/-- Closed instance of `c10_stall_termination`: a stall one second after the
last voice under `stallCfg` breaks the loop. -/
theorem c10_stall_witness :
    stepReason (vadStep stallCfg ⟨true, 0, 0, [[20000, 20000]], 2⟩ (.timeout 1)) =
      some .stall :=
  (c10_stall_termination.1 stallCfg ⟨true, 0, 0, [[20000, 20000]], 2⟩ 1).mpr
    (by
      refine ⟨rfl, ?_⟩
      rw [stallCfg_limit]
      norm_num [stallCfg])

/-- Closed instance of `c9_single_meaningful_value`: with two JSON and two
audio parts, the caller's result holds exactly the last value of each kind. -/
theorem c9_last_wins_witness :
    (convoFold (fun b => some b) (fun _ => none) (convoInit (List ℕ))
        [.json [1], .audio [2] [3], .json [4], .audio [5] [6]]).audioBuf = some [5] ∧
      (convoFold (fun b => some b) (fun _ => none) (convoInit (List ℕ))
        [.json [1], .audio [2] [3], .json [4], .audio [5] [6]]).transcript = some [4] := by
  have h := c9_single_meaningful_value (J := List ℕ) (fun b => some b) (fun _ => none)
    [.json [1], .audio [2] [3], .json [4], .audio [5] [6]]
  exact ⟨h.1.trans (by decide), h.2.trans (by decide)⟩

end PillowEndpoint
